import Mathlib

/-!
Shallow embedding of `generate_samsung_tvplus.py`, a script that downloads a
channel catalog and an EPG archive, filters channels by region and group,
formats an M3U playlist and writes the outputs.

Python dictionaries are modelled as association lists in insertion order
(`dictSet` keeps an existing key at its position and appends a fresh one,
matching CPython dict semantics); Python truthiness of the optional fields is
modelled explicitly (`chnoTruthy`, `licenseTruthy`).  Python's `sorted`, a
stable sort by key, is modelled by Mathlib's stable `List.insertionSort`.
Network, gzip and JSON effects are modelled by explicit parameters, and file
writes by a list of (path, content) pairs.
-/

/-- A channel record, with the fields the script reads: `name`, `logo` and
`group` are accessed unconditionally; `chno` and `license_url` through
`dict.get` and are therefore optional. -/
structure Channel where
  name : String
  logo : String
  group : String
  chno : Option Nat
  license_url : Option String
deriving Repr, DecidableEq

/-- A region record: its `channels` mapping (the script reads it with
`.get('channels', \x7b\x7d)`, so a missing key is the empty mapping). -/
structure Region where
  channels : List (String × Channel)
deriving Repr, DecidableEq

/-- The parsed catalog: the `regions` mapping and the `slug` URL template. -/
structure ChannelData where
  regions : List (String × Region)
  slug : String
deriving Repr, DecidableEq

/-- Python `str.lower()` on one character (ASCII model). -/
def pyLowerChar (c : Char) : Char :=
  if 'A' ≤ c ∧ c ≤ 'Z' then Char.ofNat (c.toNat + 32) else c

/-- Python `str.lower()` (ASCII model). -/
def pyLower (s : String) : String :=
  String.mk (s.data.map pyLowerChar)

/-- The whitespace characters removed by Python `str.strip()`. -/
def pyIsSpace (c : Char) : Bool :=
  c == ' ' || c == '\t' || c == '\n' || c == '\r' || c == '\x0b' || c == '\x0c'

/-- Python `str.strip()`: remove leading and trailing whitespace. -/
def pyStrip (s : String) : String :=
  String.mk (((s.data.dropWhile pyIsSpace).reverse.dropWhile pyIsSpace).reverse)

/-- Left-to-right non-overlapping replacement of a non-empty pattern, with
explicit fuel so the recursion is structural. -/
def replaceFuel (pat rep : List Char) : Nat → List Char → List Char
  | 0, l => l
  | _ + 1, [] => []
  | fuel + 1, c :: rest =>
    if pat.isPrefixOf (c :: rest) && !pat.isEmpty then
      rep ++ replaceFuel pat rep fuel (List.drop pat.length (c :: rest))
    else
      c :: replaceFuel pat rep fuel rest

/-- Python `s.replace(pat, rep)` for a non-empty pattern. -/
def pyReplace (s pat rep : String) : String :=
  String.mk (replaceFuel pat.data rep.data s.data.length s.data)

/-- Lexicographic comparison of character lists by code point: Python's
string `<=`. -/
def charListLe : List Char → List Char → Bool
  | [], _ => true
  | _ :: _, [] => false
  | a :: as, b :: bs =>
    if a < b then true else if b < a then false else charListLe as bs

/-- Python string `<=` (lexicographic by code point). -/
def pyStrLe (a b : String) : Bool :=
  charListLe a.data b.data

/-- Python truthiness of `channel.get('chno')`: a missing key and the value
`0` are both falsy. -/
def chnoTruthy : Option Nat → Bool
  | some n => n != 0
  | none => false

/-- Python truthiness of `channel.get('license_url')`: a missing key and the
empty string are both falsy. -/
def licenseTruthy : Option String → Bool
  | some s => s != ""
  | none => false

/-- CPython `d[k] = v` on an insertion-ordered dictionary: an existing key
keeps its position and receives the new value, a fresh key is appended. -/
def dictSet (d : List (String × α)) (k : String) (v : α) : List (String × α) :=
  if d.any (fun p => p.1 == k) then
    d.map (fun p => if p.1 == k then (k, v) else p)
  else
    d ++ [(k, v)]

/-- CPython `d.update(e)`: fold `dictSet` over the entries of `e` in order
(last write wins on key collision). -/
def dictUpdate (d e : List (String × α)) : List (String × α) :=
  e.foldl (fun acc p => dictSet acc p.1 p.2) d

/-- URL of the channel catalog. -/
def APP_URL : String := "https://i.mjh.nz/SamsungTVPlus/.channels.json.gz"

/-- URL template of the EPG archive. -/
def EPG_URL : String := "https://i.mjh.nz/SamsungTVPlus/\x7bregion\x7d.xml.gz"

/-- URL template of the playback redirect. -/
def PLAYBACK_URL : String := "https://jmp2.uk/\x7bslug\x7d"

/-- Output directory name. -/
def OUTPUT_DIR : String := "output"

/-- Playlist output filename. -/
def PLAYLIST_FILE : String := "samsung_tvplus.m3u"

/-- EPG output filename. -/
def EPG_FILE : String := "samsung_tvplus.xml"

/-- `os.path.join(OUTPUT_DIR, PLAYLIST_FILE)`. -/
def playlistPath : String := OUTPUT_DIR ++ "/" ++ PLAYLIST_FILE

/-- `os.path.join(OUTPUT_DIR, EPG_FILE)`. -/
def epgPath : String := OUTPUT_DIR ++ "/" ++ EPG_FILE

/-- Python `template.format(key=value)` for the simple templates used here:
replace every occurrence of the placeholder with the value. -/
def formatTemplate (template key value : String) : String :=
  pyReplace template ("\x7b" ++ key ++ "\x7d") value

/-- Line 53 of the script: a region selector that is exactly `['all']` is
expanded to every key of the catalog's region mapping. -/
def regionList (data : ChannelData) (regions : List String) : List String :=
  if regions == ["all"] then data.regions.map Prod.fst else regions

/-- Lines 56 to 60 of the script: merge the channel mapping of every selected
region that is present in the catalog into an accumulator dictionary. -/
def mergedChannels (data : ChannelData) (regions : List String) :
    List (String × Channel) :=
  (regionList data regions).foldl
    (fun acc region =>
      match data.regions.lookup region with
      | some r => dictUpdate acc r.channels
      | none => acc)
    []

/-- `filter_channels(data, regions, groups)`: region merge followed by the
optional case-insensitive group filter (lines 51 to 70). -/
def filter_channels (data : ChannelData) (regions groups : List String) :
    List (String × Channel) :=
  let channels := mergedChannels data regions
  if groups.isEmpty then
    channels
  else
    channels.filter
      (fun p => (groups.map pyLower).contains (pyLower p.2.group))

/-- The union of every region's channel mapping, merged in catalog iteration
order with last write winning on identifier collisions.  Written from the
spec's words, to be compared with `filter_channels` on the `all` sentinel. -/
def specMergeAll (data : ChannelData) : List (String × Channel) :=
  data.regions.foldl (fun acc p => dictUpdate acc p.2.channels) []

/-- The formatting configuration: the `INCLUDE_DRM`, `START_CHNO` and
`SORT_BY` environment settings of the script. -/
structure Config where
  include_drm : Bool
  start_chno : Nat
  sort_by : String
deriving Repr, DecidableEq

/-- Sort key of the `name` order: `x[1]['name'].strip().lower()`. -/
def nameKey (ch : Channel) : String :=
  pyLower (pyStrip ch.name)

/-- Sort key of the `chno` order: `x[1].get('chno', 999999)`. -/
def chnoSortKey (ch : Channel) : Nat :=
  ch.chno.getD 999999

/-- Lines 77 to 80 of the script: Python's `sorted` is a stable sort by key,
modelled by the stable `List.insertionSort`. -/
def sortChannels (cfg : Config) (channels : List (String × Channel)) :
    List (String × Channel) :=
  if cfg.sort_by == "name" then
    List.insertionSort (fun a b => pyStrLe (nameKey a.2) (nameKey b.2) = true) channels
  else
    List.insertionSort (fun a b => chnoSortKey a.2 ≤ chnoSortKey b.2) channels

/-- True when the channel falls into the sequential-numbering branch of
line 99: either the configured start is not 1 or the native number is
falsy. -/
def seqNumbered (start_chno : Nat) (ch : Channel) : Bool :=
  !(chnoTruthy ch.chno && start_chno == 1)

/-- The emission loop of lines 82 to 103: skip DRM channels when they are
excluded, and assign each emitted channel its number (native number when
`START_CHNO == 1` and the native number is truthy, else the running
counter, which only then advances). -/
def numberChannels (include_drm : Bool) (start_chno : Nat) :
    List (String × Channel) → Nat → List (String × Channel × Nat)
  | [], _ => []
  | p :: rest, cur =>
    if licenseTruthy p.2.license_url && !include_drm then
      numberChannels include_drm start_chno rest cur
    else if chnoTruthy p.2.chno && start_chno == 1 then
      (p.1, p.2, p.2.chno.getD 0) :: numberChannels include_drm start_chno rest cur
    else
      (p.1, p.2, cur) :: numberChannels include_drm start_chno rest (cur + 1)

/-- The emitted entries of a playlist run: sort, then skip and number. -/
def playlistEntries (cfg : Config) (channels : List (String × Channel)) :
    List (String × Channel × Nat) :=
  numberChannels cfg.include_drm cfg.start_chno (sortChannels cfg channels)
    cfg.start_chno

/-- Lines 94 to 112 of the script: the `#EXTINF` metadata line of one entry,
with the `[DRM]` name marker and the DRM attributes added exactly when the
channel's license URL is truthy. -/
def extinfLine (cid : String) (ch : Channel) (chno : Nat) : String :=
  let name := if licenseTruthy ch.license_url then ch.name ++ " [DRM]" else ch.name
  let base := "#EXTINF:-1 tvg-id=\"" ++ cid ++ "\" tvg-name=\"" ++ name
    ++ "\" tvg-logo=\"" ++ ch.logo ++ "\" group-title=\"" ++ ch.group
    ++ "\" tvg-chno=\"" ++ toString chno ++ "\""
  let withDrm :=
    if licenseTruthy ch.license_url then
      base ++ " drm=\"true\" license-url=\"" ++ ch.license_url.getD "" ++ "\""
    else
      base
  withDrm ++ "," ++ name

/-- Line 92 of the script: the playback URL, built by substituting the channel
identifier into the catalog's slug template and the result into
`PLAYBACK_URL`. -/
def channelUrl (data : ChannelData) (cid : String) : String :=
  formatTemplate PLAYBACK_URL "slug" (formatTemplate data.slug "id" cid)

/-- The two lines emitted for one entry: metadata line then URL line. -/
def entryLines (data : ChannelData) (e : String × Channel × Nat) : List String :=
  [extinfLine e.1 e.2.1 e.2.2, channelUrl data e.1]

/-- All lines of the playlist: the `#EXTM3U` header then the per-entry line
pairs in emission order. -/
def playlistLines (cfg : Config) (data : ChannelData)
    (channels : List (String × Channel)) : List String :=
  "#EXTM3U" :: (playlistEntries cfg channels).foldr
    (fun e acc => entryLines data e ++ acc) []

/-- `generate_m3u_playlist(data, channels)`: the playlist document,
newline-joined. -/
def generate_m3u_playlist (cfg : Config) (data : ChannelData)
    (channels : List (String × Channel)) : String :=
  String.intercalate "\n" (playlistLines cfg data channels)

/-- Content written to one file: the playlist is written as text, the EPG as
bytes. -/
inductive FileContent where
  | text (s : String)
  | binary (b : List Nat)
deriving Repr, DecidableEq

/-- `save_files(playlist_content, epg_content)`: the two writes it performs,
as (path, content) pairs in order. -/
def save_files (playlist_content : String) (epg_content : List Nat) :
    List (String × FileContent) :=
  [(playlistPath, FileContent.text playlist_content),
   (epgPath, FileContent.binary epg_content)]

/-- The error kinds the run can abort with. -/
inductive PyError where
  | networkError (msg : String)
  | formatError (msg : String)
deriving Repr, DecidableEq

/-- Outcome of one HTTP GET: a timeout, or a response with a status code and
a body. -/
inductive HttpResult where
  | timeout
  | response (status : Nat) (body : List Nat)
deriving Repr, DecidableEq

/-- Modelled from the requests library: `response.raise_for_status()` raises
an `HTTPError` exactly for status codes in [400, 600). -/
def raise_for_status (status : Nat) : Except PyError Unit :=
  if 400 ≤ status ∧ status < 600 then
    Except.error (PyError.networkError "HTTP error")
  else
    Except.ok ()

/-- `download_and_decompress(url)` applied to the outcome of its single HTTP
request: a timeout raises, a response goes through `raise_for_status`, and a
surviving body is gunzipped (`gunzip` models the gzip library, which may
itself fail on an undecodable stream). -/
def download_and_decompress (gunzip : List Nat → Except PyError (List Nat))
    (r : HttpResult) : Except PyError (List Nat) :=
  match r with
  | HttpResult.timeout => Except.error (PyError.networkError "timeout")
  | HttpResult.response status body =>
    match raise_for_status status with
    | Except.error e => Except.error e
    | Except.ok _ => gunzip body

/-- `get_channel_data()`: fetch `APP_URL`, decompress, then JSON-parse
(`parseJson` models `json.loads` on the decompressed bytes). -/
def get_channel_data (gunzip : List Nat → Except PyError (List Nat))
    (fetch : String → HttpResult)
    (parseJson : List Nat → Except PyError ChannelData) :
    Except PyError ChannelData :=
  match download_and_decompress gunzip (fetch APP_URL) with
  | Except.error e => Except.error e
  | Except.ok raw => parseJson raw

/-- The region-specific EPG URL. -/
def epgUrl (region : String) : String :=
  formatTemplate EPG_URL "region" region

/-- `get_epg_data(region)`: fetch the region's EPG archive and decompress. -/
def get_epg_data (gunzip : List Nat → Except PyError (List Nat))
    (fetch : String → HttpResult) (region : String) :
    Except PyError (List Nat) :=
  download_and_decompress gunzip (fetch (epgUrl region))

/-- Line 212 of the script: the EPG region is the single selected region when
exactly one non-`all` region is selected, else `all`. -/
def epgRegion (regions : List String) : String :=
  match regions with
  | [r] => if r = "all" then "all" else r
  | _ => "all"

/-- The `main()` pipeline (the name `main` is reserved in Lean): fetch and
parse the catalog, filter, format, fetch the EPG, write both files.  Every
stage error propagates unchanged to the result (the script prints it and
re-raises, so the process exits with a failure). -/
def mainRun (gunzip : List Nat → Except PyError (List Nat))
    (fetch : String → HttpResult)
    (parseJson : List Nat → Except PyError ChannelData)
    (cfg : Config) (regions groups : List String) :
    Except PyError (List (String × FileContent)) :=
  match get_channel_data gunzip fetch parseJson with
  | Except.error e => Except.error e
  | Except.ok data =>
    let channels := filter_channels data regions groups
    let playlist_content := generate_m3u_playlist cfg data channels
    match get_epg_data gunzip fetch (epgRegion regions) with
    | Except.error e => Except.error e
    | Except.ok epg_content => Except.ok (save_files playlist_content epg_content)

/-! ### Helper lemmas -/

theorem charListLe_total :
    ∀ a b : List Char, charListLe a b = true ∨ charListLe b a = true := by
  intro a
  induction a with
  | nil => intro b; left; rfl
  | cons x xs ih =>
    intro b
    cases b with
    | nil => right; rfl
    | cons y ys =>
      simp only [charListLe]
      by_cases hxy : x < y
      · left; simp [hxy]
      · by_cases hyx : y < x
        · right; simp [hyx]
        · simp only [if_neg hxy, if_neg hyx]
          exact ih ys

theorem charListLe_trans :
    ∀ a b c : List Char, charListLe a b = true → charListLe b c = true →
      charListLe a c = true := by
  intro a
  induction a with
  | nil => intro b c _ _; rfl
  | cons x xs ih =>
    intro b c hab hbc
    cases b with
    | nil => simp [charListLe] at hab
    | cons y ys =>
      cases c with
      | nil => simp [charListLe] at hbc
      | cons z zs =>
        simp only [charListLe] at hab hbc ⊢
        by_cases hxy : x < y
        · by_cases hyz : y < z
          · simp [lt_trans hxy hyz]
          · by_cases hzy : z < y
            · simp [hyz, hzy] at hbc
            · have hyz' : y = z := le_antisymm (not_lt.mp hzy) (not_lt.mp hyz)
              subst hyz'
              simp [hxy]
        · by_cases hyx : y < x
          · simp [hxy, hyx] at hab
          · have hxy' : x = y := le_antisymm (not_lt.mp hyx) (not_lt.mp hxy)
            subst hxy'
            simp only [lt_irrefl, if_neg (lt_irrefl x), if_false] at hab
            by_cases hyz : x < z
            · simp [hyz]
            · by_cases hzy : z < x
              · simp [hyz, hzy] at hbc
              · have hxz : x = z := le_antisymm (not_lt.mp hzy) (not_lt.mp hyz)
                subst hxz
                simp only [lt_irrefl, if_neg (lt_irrefl x), if_false] at hbc ⊢
                exact ih ys zs hab hbc

theorem pyStrLe_total (a b : String) : pyStrLe a b = true ∨ pyStrLe b a = true :=
  charListLe_total a.data b.data

theorem pyStrLe_trans {a b c : String} (hab : pyStrLe a b = true)
    (hbc : pyStrLe b c = true) : pyStrLe a c = true :=
  charListLe_trans a.data b.data c.data hab hbc

theorem numberChannels_num (incl : Bool) (start : Nat) :
    ∀ (l : List (String × Channel)) (cur i : Nat) (e : String × Channel × Nat),
      (numberChannels incl start l cur)[i]? = some e →
      (seqNumbered start e.2.1 = false → e.2.2 = e.2.1.chno.getD 0) ∧
      (seqNumbered start e.2.1 = true →
        e.2.2 = cur + ((numberChannels incl start l cur).take i).countP
          (fun x => seqNumbered start x.2.1)) := by
  intro l
  induction l with
  | nil => intro cur i e he; simp [numberChannels] at he
  | cons p rest ih =>
    intro cur i e he
    by_cases hskip : (licenseTruthy p.2.license_url && !incl) = true
    · have hres : numberChannels incl start (p :: rest) cur
          = numberChannels incl start rest cur := by
        simp [numberChannels, hskip]
      rw [hres] at he ⊢
      exact ih cur i e he
    · by_cases hnat : (chnoTruthy p.2.chno && start == 1) = true
      · have hres : numberChannels incl start (p :: rest) cur
            = (p.1, p.2, p.2.chno.getD 0) :: numberChannels incl start rest cur := by
          simp [numberChannels, hskip, hnat]
        rw [hres] at he ⊢
        have hsp : seqNumbered start p.2 = false := by simp [seqNumbered, hnat]
        cases i with
        | zero =>
          simp only [List.getElem?_cons_zero, Option.some.injEq] at he
          subst he
          constructor
          · intro _; rfl
          · intro htrue
            rw [show seqNumbered start (p.1, p.2, p.2.chno.getD 0).2.1 = false from hsp]
              at htrue
            exact absurd htrue (by simp)
        | succ i =>
          rw [List.getElem?_cons_succ] at he
          have h2 := ih cur i e he
          refine ⟨h2.1, fun htrue => ?_⟩
          rw [List.take_succ_cons, List.countP_cons]
          simp only [show seqNumbered start (p.1, p.2, p.2.chno.getD 0).2.1 = false
            from hsp, if_false]
          exact h2.2 htrue
      · have hnat' : (chnoTruthy p.2.chno && start == 1) = false := by
          revert hnat; cases chnoTruthy p.2.chno && start == 1 <;> simp
        have hsq : seqNumbered start p.2 = true := by simp [seqNumbered, hnat']
        have hres : numberChannels incl start (p :: rest) cur
            = (p.1, p.2, cur) :: numberChannels incl start rest (cur + 1) := by
          simp [numberChannels, hskip, hnat']
        rw [hres] at he ⊢
        cases i with
        | zero =>
          simp only [List.getElem?_cons_zero, Option.some.injEq] at he
          subst he
          constructor
          · intro hfalse
            rw [show seqNumbered start (p.1, p.2, cur).2.1 = true from hsq] at hfalse
            exact absurd hfalse (by simp)
          · intro _; simp
        | succ i =>
          rw [List.getElem?_cons_succ] at he
          have h2 := ih (cur + 1) i e he
          refine ⟨h2.1, fun htrue => ?_⟩
          have h3 := h2.2 htrue
          rw [List.take_succ_cons, List.countP_cons]
          simp only [show seqNumbered start (p.1, p.2, cur).2.1 = true from hsq, if_true]
          omega

theorem numberChannels_map_sublist (incl : Bool) (start : Nat) :
    ∀ (l : List (String × Channel)) (cur : Nat),
      ((numberChannels incl start l cur).map (fun e => (e.1, e.2.1))).Sublist l := by
  intro l
  induction l with
  | nil => intro cur; simp [numberChannels]
  | cons p rest ih =>
    intro cur
    by_cases hskip : (licenseTruthy p.2.license_url && !incl) = true
    · have hres : numberChannels incl start (p :: rest) cur
          = numberChannels incl start rest cur := by
        simp [numberChannels, hskip]
      rw [hres]
      exact (ih cur).cons p
    · by_cases hnat : (chnoTruthy p.2.chno && start == 1) = true
      · have hres : numberChannels incl start (p :: rest) cur
            = (p.1, p.2, p.2.chno.getD 0) :: numberChannels incl start rest cur := by
          simp [numberChannels, hskip, hnat]
        rw [hres, List.map_cons]
        exact List.Sublist.cons₂ p (ih cur)
      · have hnat' : (chnoTruthy p.2.chno && start == 1) = false := by
          revert hnat; cases chnoTruthy p.2.chno && start == 1 <;> simp
        have hres : numberChannels incl start (p :: rest) cur
            = (p.1, p.2, cur) :: numberChannels incl start rest (cur + 1) := by
          simp [numberChannels, hskip, hnat']
        rw [hres, List.map_cons]
        exact List.Sublist.cons₂ p (ih (cur + 1))

theorem numberChannels_no_drm (start : Nat) :
    ∀ (l : List (String × Channel)) (cur : Nat) (e : String × Channel × Nat),
      e ∈ numberChannels false start l cur →
      licenseTruthy e.2.1.license_url = false := by
  intro l
  induction l with
  | nil => intro cur e he; simp [numberChannels] at he
  | cons p rest ih =>
    intro cur e he
    by_cases hlic : licenseTruthy p.2.license_url = true
    · have hres : numberChannels false start (p :: rest) cur
          = numberChannels false start rest cur := by
        simp [numberChannels, hlic]
      rw [hres] at he
      exact ih cur e he
    · have hlic' : licenseTruthy p.2.license_url = false := by
        revert hlic; cases licenseTruthy p.2.license_url <;> simp
      by_cases hnat : (chnoTruthy p.2.chno && start == 1) = true
      · have hres : numberChannels false start (p :: rest) cur
            = (p.1, p.2, p.2.chno.getD 0) :: numberChannels false start rest cur := by
          simp [numberChannels, hlic', hnat]
        rw [hres] at he
        rcases List.mem_cons.mp he with h | h
        · subst h; exact hlic'
        · exact ih cur e h
      · have hnat' : (chnoTruthy p.2.chno && start == 1) = false := by
          revert hnat; cases chnoTruthy p.2.chno && start == 1 <;> simp
        have hres : numberChannels false start (p :: rest) cur
            = (p.1, p.2, cur) :: numberChannels false start rest (cur + 1) := by
          simp [numberChannels, hlic', hnat']
        rw [hres] at he
        rcases List.mem_cons.mp he with h | h
        · subst h; exact hlic'
        · exact ih (cur + 1) e h

theorem lookupNone {α : Type} (k : String) :
    ∀ l : List (String × α), k ∉ l.map Prod.fst → l.lookup k = none := by
  intro l
  induction l with
  | nil => intro _; rfl
  | cons p t ih =>
    intro h
    have hk : k ≠ p.1 := by
      intro hEq
      exact h (by simp [hEq])
    have ht : k ∉ t.map Prod.fst := by
      intro hm
      exact h (by simp [hm])
    simp [List.lookup, beq_eq_false_iff_ne.mpr hk, ih ht]

theorem mergeAll_keys (rs : List (String × Region)) :
    ∀ acc : List (String × Channel),
      (rs.map Prod.fst).Nodup →
      (rs.map Prod.fst).foldl
        (fun acc region =>
          match rs.lookup region with
          | some r => dictUpdate acc r.channels
          | none => acc) acc
      = rs.foldl (fun acc p => dictUpdate acc p.2.channels) acc := by
  induction rs with
  | nil => intro acc _; rfl
  | cons p t ih =>
    intro acc hnd
    have hnotin : p.1 ∉ t.map Prod.fst := (List.nodup_cons.mp hnd).1
    have hndt : (t.map Prod.fst).Nodup := (List.nodup_cons.mp hnd).2
    simp only [List.map_cons, List.foldl_cons]
    have hhead : (match (p :: t).lookup p.1 with
        | some r => dictUpdate acc r.channels
        | none => acc) = dictUpdate acc p.2.channels := by
      simp [List.lookup]
    rw [hhead]
    rw [List.foldl_ext
      (fun b region => match (p :: t).lookup region with
        | some r => dictUpdate b r.channels
        | none => b)
      (fun b region => match t.lookup region with
        | some r => dictUpdate b r.channels
        | none => b)
      (dictUpdate acc p.2.channels)
      (fun b k hk => by
        have hne : k ≠ p.1 := fun hEq => hnotin (hEq ▸ hk)
        simp [List.lookup, beq_eq_false_iff_ne.mpr hne])]
    exact ih (dictUpdate acc p.2.channels) hndt

theorem foldMerge_filter (data : ChannelData)
    (hall : "all" ∉ data.regions.map Prod.fst) :
    ∀ (ks : List String) (acc : List (String × Channel)),
      ks.foldl
        (fun acc region =>
          match data.regions.lookup region with
          | some r => dictUpdate acc r.channels
          | none => acc) acc
      = (ks.filter (fun r => r != "all")).foldl
          (fun acc region =>
            match data.regions.lookup region with
            | some r => dictUpdate acc r.channels
            | none => acc) acc := by
  intro ks
  induction ks with
  | nil => intro acc; rfl
  | cons k t ih =>
    intro acc
    by_cases hk : k = "all"
    · subst hk
      have hl : data.regions.lookup "all" = none := lookupNone "all" data.regions hall
      simp only [List.foldl_cons, hl, List.filter_cons]
      simp only [bne_self_eq_false, Bool.false_eq_true, if_false]
      exact ih acc
    · simp only [List.foldl_cons, List.filter_cons]
      have hbne : (k != "all") = true := by
        simp [bne, beq_eq_false_iff_ne.mpr hk]
      simp only [hbne, if_true]
      simp only [List.foldl_cons]
      exact ih _

/-! ### Concrete fixtures used by the witness theorems -/

/-- A channel with native number 7 and no DRM. -/
def chSeven : Channel :=
  { name := "Seven", logo := "l7", group := "News", chno := some 7, license_url := none }

/-- A channel with no native number and no DRM. -/
def chPlain : Channel :=
  { name := "Alpha", logo := "la", group := "News", chno := none, license_url := none }

/-- A DRM-protected channel. -/
def chDrm : Channel :=
  { name := "Beta", logo := "lb", group := "Sport", chno := none,
    license_url := some "https://lic" }

/-- A channel whose native number is the falsy value 0. -/
def chZero : Channel :=
  { name := "Zero", logo := "lz", group := "News", chno := some 0, license_url := none }

/-- A channel whose native number exceeds the 999999 sentinel. -/
def chBig : Channel :=
  { name := "Big", logo := "lg", group := "News", chno := some 1000000,
    license_url := none }

/-- Configuration with start number 1, DRM included, sort by number. -/
def cfgStart1 : Config :=
  { include_drm := true, start_chno := 1, sort_by := "chno" }

/-- Configuration with start number 5, DRM excluded, sort by number. -/
def cfgStart5NoDrm : Config :=
  { include_drm := false, start_chno := 5, sort_by := "chno" }

/-- Configuration sorting by name. -/
def cfgByName : Config :=
  { include_drm := true, start_chno := 1, sort_by := "name" }

/-! ### Claims -/

/-- C1: for every emitted entry, if `start_chno = 1` and the channel carries a
truthy native number then its assigned number is that native number; otherwise
it receives the sequential number, the sequence starting at `start_chno` and
advancing exactly once per emitted sequentially-numbered entry (never on a
skipped channel); in particular when `start_chno ≠ 1` the i-th emitted entry
receives `start_chno + i`, independent of any native number. -/
theorem channel_numbering_policy (cfg : Config) (channels : List (String × Channel))
    (i : Nat) (e : String × Channel × Nat)
    (he : (playlistEntries cfg channels)[i]? = some e) :
    (cfg.start_chno = 1 → chnoTruthy e.2.1.chno = true → e.2.1.chno = some e.2.2) ∧
    (¬ (cfg.start_chno = 1 ∧ chnoTruthy e.2.1.chno = true) →
      e.2.2 = cfg.start_chno + ((playlistEntries cfg channels).take i).countP
        (fun x => seqNumbered cfg.start_chno x.2.1)) ∧
    (cfg.start_chno ≠ 1 → e.2.2 = cfg.start_chno + i) := by
  unfold playlistEntries at he ⊢
  have h := numberChannels_num cfg.include_drm cfg.start_chno
    (sortChannels cfg channels) cfg.start_chno i e he
  have hi : i < (numberChannels cfg.include_drm cfg.start_chno
      (sortChannels cfg channels) cfg.start_chno).length := by
    by_contra hge
    rw [List.getElem?_eq_none (Nat.le_of_not_lt hge)] at he
    exact Option.noConfusion he
  refine ⟨?_, ?_, ?_⟩
  · intro h1 htr
    have hsn : seqNumbered cfg.start_chno e.2.1 = false := by
      unfold seqNumbered
      simp [htr, h1]
    have h2 := h.1 hsn
    cases hc : e.2.1.chno with
    | none => rw [hc] at htr; simp [chnoTruthy] at htr
    | some n =>
      rw [hc] at h2
      simp only [Option.getD_some] at h2
      rw [h2]
  · intro hno
    have hsn : seqNumbered cfg.start_chno e.2.1 = true := by
      unfold seqNumbered
      cases hb : chnoTruthy e.2.1.chno
      · simp
      · cases hs : (cfg.start_chno == 1)
        · simp
        · exact absurd ⟨beq_iff_eq.mp hs, hb⟩ hno
    exact h.2 hsn
  · intro hne
    have hsn : seqNumbered cfg.start_chno e.2.1 = true := by
      unfold seqNumbered
      simp [beq_eq_false_iff_ne.mpr hne]
    have h2 := h.2 hsn
    have hall : ∀ x ∈ (numberChannels cfg.include_drm cfg.start_chno
        (sortChannels cfg channels) cfg.start_chno).take i,
        (fun x => seqNumbered cfg.start_chno x.2.1) x = true := by
      intro x _
      unfold seqNumbered
      simp [beq_eq_false_iff_ne.mpr hne]
    rw [List.countP_eq_length.mpr hall, List.length_take] at h2
    rw [h2]
    omega

/-- C1 witness: with `start_chno = 1` a channel with native number 7 keeps
tvg-chno 7. -/
theorem channel_numbering_policy_witness :
    (playlistEntries cfgStart1 [("s", chSeven)])[0]? = some ("s", chSeven, 7) ∧
    chSeven.chno = some 7 := by
  refine ⟨by decide, ?_⟩
  exact (channel_numbering_policy cfgStart1 [("s", chSeven)] 0 ("s", chSeven, 7)
    (by decide)).1 rfl (by decide)

/-- C2: when DRM is excluded, every emitted entry's channel has a falsy
license URL, and its metadata line is exactly the plain form: no
license-url attribute and the unannotated name (no `[DRM]` marker). -/
theorem drm_excluded_entries (cfg : Config) (channels : List (String × Channel))
    (hdrm : cfg.include_drm = false) :
    ∀ e ∈ playlistEntries cfg channels,
      licenseTruthy e.2.1.license_url = false ∧
      extinfLine e.1 e.2.1 e.2.2
        = "#EXTINF:-1 tvg-id=\"" ++ e.1 ++ "\" tvg-name=\"" ++ e.2.1.name
          ++ "\" tvg-logo=\"" ++ e.2.1.logo ++ "\" group-title=\"" ++ e.2.1.group
          ++ "\" tvg-chno=\"" ++ toString e.2.2 ++ "\"" ++ "," ++ e.2.1.name := by
  intro e he
  unfold playlistEntries at he
  rw [hdrm] at he
  have h1 := numberChannels_no_drm cfg.start_chno (sortChannels cfg channels)
    cfg.start_chno e he
  exact ⟨h1, by simp [extinfLine, h1]⟩

/-- C2 witness: with DRM excluded, the DRM channel is skipped and the plain
channel's line carries no DRM attribute or marker. -/
theorem drm_excluded_entries_witness :
    cfgStart5NoDrm.include_drm = false ∧
    (("a", chPlain, 5) ∈ playlistEntries cfgStart5NoDrm [("a", chPlain), ("d", chDrm)]) ∧
    licenseTruthy chPlain.license_url = false ∧
    extinfLine "a" chPlain 5
      = "#EXTINF:-1 tvg-id=\"" ++ "a" ++ "\" tvg-name=\"" ++ chPlain.name
        ++ "\" tvg-logo=\"" ++ chPlain.logo ++ "\" group-title=\"" ++ chPlain.group
        ++ "\" tvg-chno=\"" ++ toString 5 ++ "\"" ++ "," ++ chPlain.name := by
  refine ⟨rfl, by decide, ?_⟩
  exact drm_excluded_entries cfgStart5NoDrm [("a", chPlain), ("d", chDrm)] rfl
    ("a", chPlain, 5) (by decide)

/-- C10: a channel whose native number is the falsy 0 is numbered
sequentially even when `start_chno = 1`; a channel with no number key gets
the sentinel 999999 as its `chno` sort key, which is what the `chno` order
compares. -/
theorem falsy_chno_sequential (cfg : Config) (channels : List (String × Channel))
    (i : Nat) (e : String × Channel × Nat)
    (h1 : cfg.start_chno = 1)
    (he : (playlistEntries cfg channels)[i]? = some e)
    (hz : e.2.1.chno = some 0) :
    (e.2.2 = 1 + ((playlistEntries cfg channels).take i).countP
      (fun x => seqNumbered cfg.start_chno x.2.1)) ∧
    (∀ ch : Channel, ch.chno = none → chnoSortKey ch = 999999) ∧
    (cfg.sort_by = "chno" →
      sortChannels cfg channels
        = List.insertionSort (fun a b => chnoSortKey a.2 ≤ chnoSortKey b.2) channels) := by
  refine ⟨?_, ?_, ?_⟩
  · unfold playlistEntries at he ⊢
    have h := numberChannels_num cfg.include_drm cfg.start_chno
      (sortChannels cfg channels) cfg.start_chno i e he
    have hsn : seqNumbered cfg.start_chno e.2.1 = true := by
      unfold seqNumbered
      simp [chnoTruthy, hz]
    have h2 := h.2 hsn
    rw [h2, h1]
  · intro ch h; simp [chnoSortKey, h]
  · intro hs
    have hb : (cfg.sort_by == "name") = false := by rw [hs]; decide
    simp [sortChannels, hb]

/-- C10 witness: a channel with chno 0 under `start_chno = 1` receives the
sequential number 1, not its native 0. -/
theorem falsy_chno_sequential_witness :
    cfgStart1.start_chno = 1 ∧
    (playlistEntries cfgStart1 [("z", chZero)])[0]? = some ("z", chZero, 1) ∧
    chZero.chno = some 0 ∧
    (1 : Nat) = 1 + ((playlistEntries cfgStart1 [("z", chZero)]).take 0).countP
      (fun x => seqNumbered cfgStart1.start_chno x.2.1) := by
  refine ⟨rfl, by decide, rfl, ?_⟩
  exact (falsy_chno_sequential cfgStart1 [("z", chZero)] 0 ("z", chZero, 1) rfl
    (by decide) rfl).1

/-- A two-region catalog fixture with unique keys and no `all` region. -/
def dataTwoRegions : ChannelData :=
  { regions := [("us", { channels := [("a", chPlain)] }),
                ("uk", { channels := [("d", chDrm)] })],
    slug := "samsung-\x7bid\x7d" }

/-- C3: under the `all` region selector (and no group restriction), the filter
output is exactly the union of every region's channel mapping, merged in
catalog iteration order with last write winning. -/
theorem all_regions_union (data : ChannelData)
    (hnd : (data.regions.map Prod.fst).Nodup) :
    filter_channels data ["all"] [] = specMergeAll data := by
  have h1 : filter_channels data ["all"] [] = mergedChannels data ["all"] := by
    simp [filter_channels]
  rw [h1]
  unfold mergedChannels specMergeAll
  rw [show regionList data ["all"] = data.regions.map Prod.fst by simp [regionList]]
  exact mergeAll_keys data.regions [] hnd

/-- C3 witness: on a concrete two-region catalog the filtered set equals the
merged union. -/
theorem all_regions_union_witness :
    (dataTwoRegions.regions.map Prod.fst).Nodup ∧
    filter_channels dataTwoRegions ["all"] [] = specMergeAll dataTwoRegions :=
  ⟨by decide, all_regions_union dataTwoRegions (by decide)⟩

/-- C4: with an empty group selector all merged channels are retained; with a
non-empty selector a channel is retained iff its lower-cased group label is
among the lower-cased selector labels. -/
theorem group_filter_membership (data : ChannelData) (regions groups : List String) :
    (groups = [] → filter_channels data regions groups = mergedChannels data regions) ∧
    (groups ≠ [] → ∀ cid ch,
      ((cid, ch) ∈ filter_channels data regions groups ↔
        (cid, ch) ∈ mergedChannels data regions ∧
          pyLower ch.group ∈ groups.map pyLower)) := by
  constructor
  · intro h; subst h; simp [filter_channels]
  · intro h cid ch
    have hne : groups.isEmpty = false := by
      cases groups with
      | nil => exact absurd rfl h
      | cons g gs => rfl
    rw [show filter_channels data regions groups
        = (mergedChannels data regions).filter
            (fun p => (groups.map pyLower).contains (pyLower p.2.group)) by
      simp [filter_channels, hne]]
    rw [List.mem_filter]
    constructor
    · rintro ⟨hm, hc⟩
      exact ⟨hm, by simpa using hc⟩
    · rintro ⟨hm, hmem⟩
      exact ⟨hm, by simpa using hmem⟩

/-- C4 witness: the News channel survives the case-insensitive `NEWS`
selector on the concrete catalog. -/
theorem group_filter_membership_witness :
    ((["NEWS"] : List String) ≠ []) ∧
    (("a", chPlain) ∈ filter_channels dataTwoRegions ["us", "uk"] ["NEWS"] ↔
      ("a", chPlain) ∈ mergedChannels dataTwoRegions ["us", "uk"] ∧
        pyLower chPlain.group ∈ (["NEWS"] : List String).map pyLower) := by
  refine ⟨by decide, ?_⟩
  exact (group_filter_membership dataTwoRegions ["us", "uk"] ["NEWS"]).2
    (by decide) "a" chPlain

/-- C9: the `all` sentinel is recognized only as the exact singleton selector:
any other selector is used literally (no expansion), and when `all` is not a
catalog key its literal occurrence contributes nothing. -/
theorem all_sentinel_exact (data : ChannelData) (regions groups : List String)
    (_hall : "all" ∈ regions) (h2 : regions ≠ ["all"])
    (h3 : "all" ∉ data.regions.map Prod.fst) :
    regionList data regions = regions ∧
    filter_channels data regions groups
      = filter_channels data (regions.filter (fun r => r != "all")) groups := by
  have hbeq : (regions == ["all"]) = false := beq_eq_false_iff_ne.mpr h2
  have hr1 : regionList data regions = regions := by simp [regionList, hbeq]
  refine ⟨hr1, ?_⟩
  have hbeq2 : ((regions.filter (fun r => r != "all")) == ["all"]) = false := by
    apply beq_eq_false_iff_ne.mpr
    intro hEq
    have hmem : "all" ∈ regions.filter (fun r => r != "all") := by
      rw [hEq]; simp
    have hp := List.of_mem_filter hmem
    simp at hp
  have hm : mergedChannels data regions
      = mergedChannels data (regions.filter (fun r => r != "all")) := by
    unfold mergedChannels
    rw [hr1, show regionList data (regions.filter (fun r => r != "all"))
        = regions.filter (fun r => r != "all") by simp [regionList, hbeq2]]
    exact foldMerge_filter data h3 regions []
  simp [filter_channels, hm]

/-- C9 witness: the selector `[all, us]` is taken literally on a catalog
without an `all` region, so it equals the selector with `all` removed. -/
theorem all_sentinel_exact_witness :
    ("all" ∈ (["all", "us"] : List String)) ∧
    ((["all", "us"] : List String) ≠ ["all"]) ∧
    ("all" ∉ dataTwoRegions.regions.map Prod.fst) ∧
    regionList dataTwoRegions ["all", "us"] = ["all", "us"] ∧
    filter_channels dataTwoRegions ["all", "us"] []
      = filter_channels dataTwoRegions
          ((["all", "us"] : List String).filter (fun r => r != "all")) [] := by
  refine ⟨by decide, by decide, by decide, ?_⟩
  exact all_sentinel_exact dataTwoRegions ["all", "us"] [] (by decide) (by decide)
    (by decide)

/-- C5 (amended): under the `chno` sort the emitted entries are
non-decreasing in the sort key (the native number when present, else the
sentinel 999999); consequently a channel with no number never precedes a
channel whose native number is below the sentinel — equivalently, missing
numbers sort after every native number below 999999. -/
theorem chno_sort_order (cfg : Config) (channels : List (String × Channel))
    (hs : cfg.sort_by = "chno") :
    List.Pairwise (fun a b => chnoSortKey a.2.1 ≤ chnoSortKey b.2.1)
      (playlistEntries cfg channels) ∧
    List.Pairwise (fun a b => a.2.1.chno = none →
      ∀ n, b.2.1.chno = some n → 999999 ≤ n)
      (playlistEntries cfg channels) := by
  have hb : (cfg.sort_by == "name") = false := by rw [hs]; decide
  have hsort : sortChannels cfg channels
      = List.insertionSort (fun a b => chnoSortKey a.2 ≤ chnoSortKey b.2) channels := by
    simp [sortChannels, hb]
  haveI : IsTotal (String × Channel) (fun a b => chnoSortKey a.2 ≤ chnoSortKey b.2) :=
    ⟨fun a b => Nat.le_total _ _⟩
  haveI : IsTrans (String × Channel) (fun a b => chnoSortKey a.2 ≤ chnoSortKey b.2) :=
    ⟨fun _ _ _ hab hbc => le_trans hab hbc⟩
  have hsorted : List.Pairwise (fun a b => chnoSortKey a.2 ≤ chnoSortKey b.2)
      (sortChannels cfg channels) := by
    rw [hsort]
    exact List.sorted_insertionSort _ channels
  have hsub := numberChannels_map_sublist cfg.include_drm cfg.start_chno
    (sortChannels cfg channels) cfg.start_chno
  have hmap := List.Pairwise.sublist hsub hsorted
  have h1 : List.Pairwise (fun a b => chnoSortKey a.2.1 ≤ chnoSortKey b.2.1)
      (playlistEntries cfg channels) := by
    unfold playlistEntries
    exact List.Pairwise.of_map (fun e => (e.1, e.2.1)) (fun a b h => h) hmap
  refine ⟨h1, h1.imp ?_⟩
  intro a b hab
  intro hn n hbn
  have ha : chnoSortKey a.2.1 = 999999 := by simp [chnoSortKey, hn]
  have hb2 : chnoSortKey b.2.1 = n := by simp [chnoSortKey, hbn]
  rw [ha, hb2] at hab
  exact hab

/-- C5 counterexample: a channel with native number 1000000 sorts after the
channel with no number, so a missing number does not sort after all channels
that have one. -/
theorem chno_sort_missing_not_last :
    ¬ List.Pairwise (fun a b => a.2.chno = none → b.2.chno = none)
      (sortChannels cfgStart1 [("a", chPlain), ("b", chBig)]) := by
  decide

/-- C5 witness: the amended order statement on a concrete channel list. -/
theorem chno_sort_order_witness :
    cfgStart1.sort_by = "chno" ∧
    (List.Pairwise (fun a b => chnoSortKey a.2.1 ≤ chnoSortKey b.2.1)
      (playlistEntries cfgStart1 [("b", chBig), ("s", chSeven)]) ∧
    List.Pairwise (fun a b => a.2.1.chno = none →
      ∀ n, b.2.1.chno = some n → 999999 ≤ n)
      (playlistEntries cfgStart1 [("b", chBig), ("s", chSeven)])) :=
  ⟨rfl, chno_sort_order cfgStart1 [("b", chBig), ("s", chSeven)] rfl⟩

/-- C6: under the `name` sort the emitted entries are non-decreasing under
Python string comparison of the stripped, lower-cased display names. -/
theorem name_sort_order (cfg : Config) (channels : List (String × Channel))
    (hs : cfg.sort_by = "name") :
    List.Pairwise (fun a b => pyStrLe (nameKey a.2.1) (nameKey b.2.1) = true)
      (playlistEntries cfg channels) := by
  have hb : (cfg.sort_by == "name") = true := by rw [hs]; decide
  have hsort : sortChannels cfg channels
      = List.insertionSort
          (fun a b => pyStrLe (nameKey a.2) (nameKey b.2) = true) channels := by
    simp [sortChannels, hb]
  haveI : IsTotal (String × Channel)
      (fun a b => pyStrLe (nameKey a.2) (nameKey b.2) = true) :=
    ⟨fun a b => pyStrLe_total _ _⟩
  haveI : IsTrans (String × Channel)
      (fun a b => pyStrLe (nameKey a.2) (nameKey b.2) = true) :=
    ⟨fun _ _ _ hab hbc => pyStrLe_trans hab hbc⟩
  have hsorted : List.Pairwise
      (fun a b => pyStrLe (nameKey a.2) (nameKey b.2) = true)
      (sortChannels cfg channels) := by
    rw [hsort]
    exact List.sorted_insertionSort _ channels
  have hsub := numberChannels_map_sublist cfg.include_drm cfg.start_chno
    (sortChannels cfg channels) cfg.start_chno
  have hmap := List.Pairwise.sublist hsub hsorted
  unfold playlistEntries
  exact List.Pairwise.of_map (fun e => (e.1, e.2.1)) (fun a b h => h) hmap

/-- C6 witness: the name order statement on a concrete channel list. -/
theorem name_sort_order_witness :
    cfgByName.sort_by = "name" ∧
    List.Pairwise (fun a b => pyStrLe (nameKey a.2.1) (nameKey b.2.1) = true)
      (playlistEntries cfgByName [("d", chDrm), ("a", chPlain)]) :=
  ⟨rfl, name_sort_order cfgByName [("d", chDrm), ("a", chPlain)] rfl⟩

/-- A gunzip model that succeeds and returns the body unchanged. -/
def gzOk : List Nat → Except PyError (List Nat) := fun b => Except.ok b

/-- A fetch model where every request returns status 200 with body `[3]`. -/
def fetch200 : String → HttpResult := fun _ => HttpResult.response 200 [3]

/-- A parse model returning the fixed two-region catalog. -/
def parseFixed : List Nat → Except PyError ChannelData :=
  fun _ => Except.ok dataTwoRegions

/-- The writes a successful run over the fixed models performs. -/
def mainWrites : List (String × FileContent) :=
  save_files
    (generate_m3u_playlist cfgStart1 dataTwoRegions
      (filter_channels dataTwoRegions ["all"] [])) [3]

/-- C7: the EPG bytes written by `save_files` are exactly the bytes it was
given, and on any successful run the bytes written to the EPG output file are
exactly the fetch-and-decompress result — a pure passthrough. -/
theorem epg_passthrough :
    (∀ (playlist : String) (epg : List Nat),
      (save_files playlist epg).lookup epgPath = some (FileContent.binary epg)) ∧
    (∀ (gunzip : List Nat → Except PyError (List Nat)) (fetch : String → HttpResult)
      (parseJson : List Nat → Except PyError ChannelData) (cfg : Config)
      (regions groups : List String)
      (writes : List (String × FileContent)) (epg : List Nat),
      get_epg_data gunzip fetch (epgRegion regions) = Except.ok epg →
      mainRun gunzip fetch parseJson cfg regions groups = Except.ok writes →
      writes.lookup epgPath = some (FileContent.binary epg)) := by
  have hlook : ∀ (playlist : String) (epg : List Nat),
      (save_files playlist epg).lookup epgPath = some (FileContent.binary epg) := by
    intro playlist epg
    have hne : (epgPath == playlistPath) = false := by decide
    simp [save_files, List.lookup, hne]
  refine ⟨hlook, ?_⟩
  intro gunzip fetch parseJson cfg regions groups writes epg hepg hmain
  unfold mainRun at hmain
  cases hcd : get_channel_data gunzip fetch parseJson with
  | error e => rw [hcd] at hmain; exact Except.noConfusion hmain
  | ok data =>
    rw [hcd, hepg] at hmain
    simp only [Except.ok.injEq] at hmain
    rw [← hmain]
    exact hlook _ epg

/-- C7 witness: a successful concrete run writes the decompressed EPG bytes
`[3]` unchanged to the EPG output file. -/
theorem epg_passthrough_witness :
    get_epg_data gzOk fetch200 (epgRegion ["all"]) = Except.ok [3] ∧
    mainRun gzOk fetch200 parseFixed cfgStart1 ["all"] [] = Except.ok mainWrites ∧
    mainWrites.lookup epgPath = some (FileContent.binary [3]) := by
  refine ⟨rfl, rfl, ?_⟩
  exact epg_passthrough.2 gzOk fetch200 parseFixed cfgStart1 ["all"] [] mainWrites [3]
    rfl rfl

/-- C8 (amended): the fetcher fails with a NetworkError on a timeout and on
an HTTP status in [400, 600) — the statuses `raise_for_status` raises on —
and every stage error (catalog fetch, catalog parse, EPG fetch) propagates
unchanged out of the run, with no retry and no recovery. -/
theorem error_propagation :
    (∀ gunzip : List Nat → Except PyError (List Nat),
      download_and_decompress gunzip HttpResult.timeout
        = Except.error (PyError.networkError "timeout")) ∧
    (∀ (gunzip : List Nat → Except PyError (List Nat)) (status : Nat) (body : List Nat),
      400 ≤ status → status < 600 →
      download_and_decompress gunzip (HttpResult.response status body)
        = Except.error (PyError.networkError "HTTP error")) ∧
    (∀ (gunzip : List Nat → Except PyError (List Nat)) (fetch : String → HttpResult)
      (parseJson : List Nat → Except PyError ChannelData) (cfg : Config)
      (regions groups : List String) (e : PyError),
      download_and_decompress gunzip (fetch APP_URL) = Except.error e →
      mainRun gunzip fetch parseJson cfg regions groups = Except.error e) ∧
    (∀ (gunzip : List Nat → Except PyError (List Nat)) (fetch : String → HttpResult)
      (parseJson : List Nat → Except PyError ChannelData) (raw : List Nat)
      (e : PyError) (cfg : Config) (regions groups : List String),
      download_and_decompress gunzip (fetch APP_URL) = Except.ok raw →
      parseJson raw = Except.error e →
      mainRun gunzip fetch parseJson cfg regions groups = Except.error e) ∧
    (∀ (gunzip : List Nat → Except PyError (List Nat)) (fetch : String → HttpResult)
      (parseJson : List Nat → Except PyError ChannelData) (data : ChannelData)
      (e : PyError) (cfg : Config) (regions groups : List String),
      get_channel_data gunzip fetch parseJson = Except.ok data →
      get_epg_data gunzip fetch (epgRegion regions) = Except.error e →
      mainRun gunzip fetch parseJson cfg regions groups = Except.error e) := by
  refine ⟨fun gunzip => rfl, ?_, ?_, ?_, ?_⟩
  · intro gunzip status body h1 h2
    simp [download_and_decompress, raise_for_status, h1, h2]
  · intro gunzip fetch parseJson cfg regions groups e hdl
    unfold mainRun get_channel_data
    rw [hdl]
  · intro gunzip fetch parseJson raw e cfg regions groups hdl hp
    unfold mainRun get_channel_data
    rw [hdl]
    simp only []
    rw [hp]
  · intro gunzip fetch parseJson data e cfg regions groups hcd hepg
    unfold mainRun
    rw [hcd]
    simp only []
    rw [hepg]

/-- C8 counterexample: status 304 is not a 2xx response, yet the fetcher
does not raise — `raise_for_status` only raises on 4xx and 5xx, so the
decompressed body comes back successfully. -/
theorem non2xx_not_error :
    ¬ (200 ≤ 304 ∧ 304 < 300) ∧
    download_and_decompress gzOk (HttpResult.response 304 [7]) = Except.ok [7] :=
  ⟨by decide, rfl⟩

/-- C8 witness: a 404 response raises a NetworkError, and a catalog-fetch
timeout aborts the whole run with that same error. -/
theorem error_propagation_witness :
    download_and_decompress gzOk (HttpResult.response 404 [1])
      = Except.error (PyError.networkError "HTTP error") ∧
    mainRun gzOk (fun _ => HttpResult.timeout) parseFixed cfgStart1 ["all"] []
      = Except.error (PyError.networkError "timeout") := by
  constructor
  · exact error_propagation.2.1 gzOk 404 [1] (by decide) (by decide)
  · exact error_propagation.2.2.1 gzOk (fun _ => HttpResult.timeout) parseFixed
      cfgStart1 ["all"] [] (PyError.networkError "timeout")
      (error_propagation.1 gzOk)
